import Mathlib

/-!
Verification of the Hybrid Relevance Mapping Engine of
`src/app/api/services/relevance-mapping-service.ts`.

The pipeline-level numeric values (similarity scores, thresholds, tier
weights) are modelled as exact rationals (`ℚ`); the similarity computation
itself (`cosineSimilarity` and the per-domain maximum), where IEEE-754
special values are behaviourally relevant, is modelled separately over `ℝ`
extended with the JavaScript special values `NaN` and `±Infinity` (`JSNum`
below).  The external embedding and classification calls are I/O and enter
the model as parameters: Phase 1 receives the computed similarity maps,
Phase 2 receives the outcome of each `generateObject` attempt
(`Except String LLMPhaseResult`, where `.error` stands for a provider error
or unparsable structured output).
-/

/-- Relevance tier assigned by the assessment phase (source type
`LLMAssessment`, line 21). -/
inductive LLMAssessment where
  | PRIMARY
  | SECONDARY
  | SUPPORTING
  | IRRELEVANT
  deriving DecidableEq, Repr

/-- Source interface `FileCandidate` (lines 23-27): a Phase-1 candidate,
with the optional `llmAssessment` field added by `mergePhaseResults`. -/
structure FileCandidate where
  path : String
  embeddingScore : ℚ
  llmAssessment : Option LLMAssessment := none
  deriving DecidableEq, Repr

/-- Source interface `HybridScoredFile` (lines 29-32). -/
structure HybridScoredFile where
  path : String
  embeddingScore : ℚ
  llmAssessment : LLMAssessment
  hybridScore : ℚ
  deriving DecidableEq, Repr

/-- Source interface `EmbeddingPhaseResult` (lines 34-38): the Phase-1
candidates per requirement domain. -/
structure EmbeddingPhaseResult where
  best_practices : List FileCandidate
  functional_requirements : List FileCandidate
  non_functional_requirements : List FileCandidate
  deriving DecidableEq, Repr

/-- One entry of the assessment-phase output: `{ path, assessment }`
(source `fileAssessmentSchema`, lines 116-120). -/
structure FileAssessment where
  path : String
  assessment : LLMAssessment
  deriving DecidableEq, Repr

/-- Source interface `LLMPhaseResult` (lines 40-44). -/
structure LLMPhaseResult where
  best_practices : List FileAssessment
  functional_requirements : List FileAssessment
  non_functional_requirements : List FileAssessment
  deriving DecidableEq, Repr

/-- The metadata block of `RelevanceMappingResult` (lines 50-55). -/
structure ResultMetadata where
  phase1_total_candidates : ℕ
  phase2_assessed_files : ℕ
  final_included_files : ℕ
  processing_time_ms : ℕ
  deriving DecidableEq, Repr

/-- Source interface `RelevanceMappingResult` (lines 46-56). -/
structure RelevanceMappingResult where
  best_practices : List HybridScoredFile
  functional_requirements : List HybridScoredFile
  non_functional_requirements : List HybridScoredFile
  metadata : ResultMetadata
  deriving DecidableEq, Repr

/-- The `Omit<RelevanceMappingResult, 'metadata'>` shape returned by
`hybridScoringPhase` (line 674). -/
structure HybridPhaseResult where
  best_practices : List HybridScoredFile
  functional_requirements : List HybridScoredFile
  non_functional_requirements : List HybridScoredFile
  deriving DecidableEq, Repr

/-- Source `Required<HybridOptions>` (lines 58-79): the fully-defaulted
configuration passed to every phase. -/
structure HybridConfig where
  embeddingTopK : ℕ
  embeddingThreshold : ℚ
  embeddingRetryThresholds : List ℚ
  minCandidatesForPhase2 : ℕ
  maxTokensPerFile : ℕ
  parallelBatchSize : ℕ
  hybridScoreThreshold : ℚ
  deriving DecidableEq, Repr

/-- Source constant `LLM_WEIGHT` (lines 92-97): the fixed tier-weight
table. -/
def LLM_WEIGHT : LLMAssessment → ℚ
  | .PRIMARY => 1
  | .SECONDARY => 3 / 4
  | .SUPPORTING => 1 / 2
  | .IRRELEVANT => 0

/-- Source constant `DEFAULT_OPTIONS` (lines 99-110). -/
def DEFAULT_OPTIONS : HybridConfig where
  embeddingTopK := 20
  embeddingThreshold := 11 / 20
  embeddingRetryThresholds := [9 / 20, 7 / 20, 1 / 4, 3 / 20]
  minCandidatesForPhase2 := 10
  maxTokensPerFile := 6000
  parallelBatchSize := 10
  hybridScoreThreshold := 1 / 5

/-! ### Phase 1: candidate selection

The per-domain similarity map `Record<string, number>` is modelled as an
association list `List (String × ℚ)` in object-insertion order (JavaScript
string-keyed objects enumerate in insertion order, and paths are unique
keys).  Similarity maps for the three domains are bundled like the source
`Record<string, Record<string, number>>`. -/

/-- Per-domain similarity maps as produced by `computeSimilarities`
(lines 301-321); one association list per requirement domain. -/
structure SimilarityMap where
  best_practices : List (String × ℚ)
  functional_requirements : List (String × ℚ)
  non_functional_requirements : List (String × ℚ)
  deriving DecidableEq, Repr

/-- Source method `filterAndSortByThreshold` (lines 374-384): keep files
with `sim >= threshold`, sort descending by similarity (the comparator
`(a, b) => simB - simA`; `Array.prototype.sort` is stable, modelled by
`List.mergeSort`), take the top `topK` (`slice(0, topK)`), and repackage as
`{ path, embeddingScore }`. -/
def filterAndSortByThreshold (fileSims : List (String × ℚ)) (threshold : ℚ)
    (topK : ℕ) : List FileCandidate :=
  ((((fileSims.filter (fun p => threshold ≤ p.2)).mergeSort
      (fun a b => decide (b.2 ≤ a.2))).take topK).map
    (fun p => { path := p.1, embeddingScore := p.2 }))

/-- The retry loop of `selectTopCandidates` (lines 349-357): walk the
retry thresholds in order, recomputing the candidate list at each, and
stop as soon as the minimum candidate count is met; if the list is
exhausted the candidates computed at the last threshold remain. -/
def retrySelect (fileSims : List (String × ℚ)) (topK minCandidates : ℕ) :
    List ℚ → List FileCandidate → List FileCandidate
  | [], candidates => candidates
  | t :: ts, _ =>
    let candidates := filterAndSortByThreshold fileSims t topK
    if minCandidates ≤ candidates.length then candidates
    else retrySelect fileSims topK minCandidates ts candidates

/-- The per-domain loop body of `selectTopCandidates` (lines 340-361):
try the default threshold first, and enter the adaptive retry loop only
when the candidate count falls short of `minCandidatesForPhase2`. -/
def selectForDomain (fileSims : List (String × ℚ)) (config : HybridConfig) :
    List FileCandidate :=
  let candidates :=
    filterAndSortByThreshold fileSims config.embeddingThreshold config.embeddingTopK
  if candidates.length < config.minCandidatesForPhase2 then
    retrySelect fileSims config.embeddingTopK config.minCandidatesForPhase2
      config.embeddingRetryThresholds candidates
  else candidates

/-- Source method `selectTopCandidates` (lines 330-364), applied to each
of the three requirement domains. -/
def selectTopCandidates (similarities : SimilarityMap) (config : HybridConfig) :
    EmbeddingPhaseResult where
  best_practices := selectForDomain similarities.best_practices config
  functional_requirements := selectForDomain similarities.functional_requirements config
  non_functional_requirements := selectForDomain similarities.non_functional_requirements config

/-! ### Phase 2: LLM assessment -/

/-- The union of Phase-1 candidate paths across the three domains
(source lines 409-413, `candidatePaths = new Set([...])`).  JavaScript
`Set`s are modelled as lists with membership; only membership and
emptiness of derived lists are ever used. -/
def candidatePathsOf (phase1Results : EmbeddingPhaseResult) : List String :=
  (phase1Results.best_practices ++ phase1Results.functional_requirements ++
    phase1Results.non_functional_requirements).map (fun f => f.path)

/-- All paths occurring in an assessment response, across the three
domains (source lines 515-519, `allPaths`). -/
def allResponsePaths (output : LLMPhaseResult) : List String :=
  (output.best_practices ++ output.functional_requirements ++
    output.non_functional_requirements).map (fun f => f.path)

/-- Source method `validateLlmOutput` (lines 514-535): collect the set of
paths in the response, compute the expected paths missing from it and the
response paths not expected, and throw iff either list is nonempty. -/
def validateLlmOutput (output : LLMPhaseResult) (expectedPaths : List String) :
    Except String Unit :=
  let allPaths := allResponsePaths output
  let missing := expectedPaths.filter (fun f => ¬ f ∈ allPaths)
  let extra := allPaths.filter (fun f => ¬ f ∈ expectedPaths)
  if 0 < missing.length ∨ 0 < extra.length then
    .error "LLM output validation failed"
  else
    .ok ()

/-- The per-candidate heuristic of `createFallbackAssessment`
(source `assessFile`, lines 547-550):
`score > 0.6 ? PRIMARY : score > 0.4 ? SECONDARY : SUPPORTING`. -/
def assessFile (file : FileCandidate) : FileAssessment where
  path := file.path
  assessment :=
    if (3 / 5 : ℚ) < file.embeddingScore then .PRIMARY
    else if (2 / 5 : ℚ) < file.embeddingScore then .SECONDARY
    else .SUPPORTING

/-- Source method `createFallbackAssessment` (lines 544-557). -/
def createFallbackAssessment (phase1Results : EmbeddingPhaseResult) :
    LLMPhaseResult where
  best_practices := phase1Results.best_practices.map assessFile
  functional_requirements := phase1Results.functional_requirements.map assessFile
  non_functional_requirements := phase1Results.non_functional_requirements.map assessFile

/-- One attempt of the Phase-2 loop body (source lines 430-464): the
`generateObject` outcome (`.error` = provider error or unparsable output),
followed by `validateLlmOutput`; any failure is caught and surfaces as an
`.error` that sends the loop to the next attempt. -/
def runAttempt (expectedPaths : List String)
    (attempt : Except String LLMPhaseResult) : Except String LLMPhaseResult := do
  let output ← attempt
  validateLlmOutput output expectedPaths
  pure output

/-- Source method `llmPhase` (lines 400-472), with the three
`generateObject` outcomes as parameters: return the first attempt that
parses and validates; after three failures fall back to
`createFallbackAssessment` instead of propagating any error. -/
def llmPhase (phase1Results : EmbeddingPhaseResult)
    (a1 a2 a3 : Except String LLMPhaseResult) : LLMPhaseResult :=
  let expected := candidatePathsOf phase1Results
  match runAttempt expected a1 with
  | .ok output => output
  | .error _ =>
    match runAttempt expected a2 with
    | .ok output => output
    | .error _ =>
      match runAttempt expected a3 with
      | .ok output => output
      | .error _ => createFallbackAssessment phase1Results

/-! ### Phase 3: hybrid scoring -/

/-- JavaScript `Map` lookup for the map built in `mergePhaseResults`
(line 718): with duplicate keys in `phase2Files`, the last entry wins. -/
def phase2Lookup (phase2Files : List FileAssessment) (p : String) :
    Option FileAssessment :=
  phase2Files.reverse.find? (fun f => f.path = p)

/-- Source method `mergePhaseResults` (lines 714-727): attach to every
Phase-1 candidate the assessment found for its path, if any. -/
def mergePhaseResults (phase1Files : List FileCandidate)
    (phase2Files : List FileAssessment) : List FileCandidate :=
  phase1Files.map (fun file =>
    { file with
      llmAssessment := ((phase2Lookup phase2Files file.path).map (fun f => f.assessment)) })

/-- Source method `computeHybridScore` (lines 735-746):
`llmAssessment = file.llmAssessment || 'IRRELEVANT'` (the assessment
strings are all truthy, so `||` is `Option.getD`), and
`hybridScore = embeddingScore * LLM_WEIGHT[llmAssessment]`. -/
def computeHybridScore (file : FileCandidate) : HybridScoredFile :=
  let llmAssessment := file.llmAssessment.getD .IRRELEVANT
  { path := file.path
    embeddingScore := file.embeddingScore
    llmAssessment := llmAssessment
    hybridScore := file.embeddingScore * LLM_WEIGHT llmAssessment }

/-- The per-domain loop body of `hybridScoringPhase` (lines 683-702):
merge, score, sort descending by `hybridScore` (stable sort, comparator
`(a, b) => b.hybridScore - a.hybridScore`), then filter by the
threshold. -/
def hybridScoreDomain (phase1Files : List FileCandidate)
    (phase2Files : List FileAssessment) (config : HybridConfig) :
    List HybridScoredFile :=
  let merged := mergePhaseResults phase1Files phase2Files
  let scored := merged.map computeHybridScore
  let sorted := scored.mergeSort (fun a b => decide (b.hybridScore ≤ a.hybridScore))
  sorted.filter (fun file => config.hybridScoreThreshold ≤ file.hybridScore)

/-- Source method `hybridScoringPhase` (lines 670-705), applied to each
of the three requirement domains. -/
def hybridScoringPhase (phase1Results : EmbeddingPhaseResult)
    (phase2Results : LLMPhaseResult) (config : HybridConfig) :
    HybridPhaseResult where
  best_practices :=
    hybridScoreDomain phase1Results.best_practices phase2Results.best_practices config
  functional_requirements :=
    hybridScoreDomain phase1Results.functional_requirements
      phase2Results.functional_requirements config
  non_functional_requirements :=
    hybridScoreDomain phase1Results.non_functional_requirements
      phase2Results.non_functional_requirements config

/-! ### Orchestrator -/

/-- Source method `countCandidates` (lines 871-875) on
`EmbeddingPhaseResult` inputs. -/
def countCandidatesEmbedding (result : EmbeddingPhaseResult) : ℕ :=
  result.best_practices.length + result.functional_requirements.length +
    result.non_functional_requirements.length

/-- Source method `countCandidates` (lines 871-875) on `LLMPhaseResult`
inputs. -/
def countCandidatesLlm (result : LLMPhaseResult) : ℕ :=
  result.best_practices.length + result.functional_requirements.length +
    result.non_functional_requirements.length

/-- Source method `countIncluded` (lines 883-887). -/
def countIncluded (result : HybridPhaseResult) : ℕ :=
  result.best_practices.length + result.functional_requirements.length +
    result.non_functional_requirements.length

/-- Source method `execute` (lines 147-193) from Phase 1 onward: the
embedding phase is I/O, so its result enters as a parameter, as do the
three Phase-2 attempt outcomes and the measured wall-clock time.   Phases
2 and 3 are total, so this path of `execute` returns a complete
`RelevanceMappingResult` (the `catch` clause is reachable only from
Phase-1 failures, which are out of this model's inputs). -/
def execute (phase1Results : EmbeddingPhaseResult)
    (a1 a2 a3 : Except String LLMPhaseResult) (config : HybridConfig)
    (processingTime : ℕ) : RelevanceMappingResult :=
  let phase2Results := llmPhase phase1Results a1 a2 a3
  let finalResults := hybridScoringPhase phase1Results phase2Results config
  { best_practices := finalResults.best_practices
    functional_requirements := finalResults.functional_requirements
    non_functional_requirements := finalResults.non_functional_requirements
    metadata :=
      { phase1_total_candidates := countCandidatesEmbedding phase1Results
        phase2_assessed_files := countCandidatesLlm phase2Results
        final_included_files := countIncluded finalResults
        processing_time_ms := processingTime } }

/-! ### The similarity computation over JavaScript number semantics

`cosineSimilarity` (lines 789-794) and the per-domain maximum
(lines 313-316) are the one place where IEEE-754 special values are
behaviourally relevant: a zero-magnitude embedding makes the division
`0 / 0` produce `NaN`.  Numbers are modelled as exact reals extended with
`NaN` and the two infinities.  Signed zero is not modelled: the divisor is
a product of square roots, hence never a negative zero. -/

/-- A JavaScript number: an exact real, an infinity, or `NaN`. -/
inductive JSNum where
  | nan
  | negInf
  | posInf
  | val (x : ℝ)

/-- JavaScript division of two finite numbers: division by (positive)
zero yields `NaN` when the dividend is zero and a signed infinity
otherwise. -/
noncomputable def jsDiv (num den : ℝ) : JSNum :=
  if den = 0 then
    if num = 0 then .nan else if 0 < num then .posInf else .negInf
  else .val (num / den)

/-- The order under which `Math.max` is the binary join: `-Infinity` at
the bottom, finite values by the real order, `Infinity` above them and
`NaN` absorbing at the top. -/
def jsLe : JSNum → JSNum → Prop
  | _, .nan => True
  | .nan, _ => False
  | .negInf, _ => True
  | _, .negInf => False
  | .val x, .val y => x ≤ y
  | .val _, .posInf => True
  | .posInf, .posInf => True
  | .posInf, .val _ => False

/-- Binary `Math.max`: `NaN` if either argument is `NaN`, otherwise the
larger argument. -/
noncomputable def jsMax : JSNum → JSNum → JSNum
  | .nan, _ => .nan
  | _, .nan => .nan
  | .negInf, b => b
  | a, .negInf => a
  | .posInf, _ => .posInf
  | _, .posInf => .posInf
  | .val x, .val y => .val (max x y)

/-- `Math.max(...list)`: the fold of binary `Math.max` with identity
`-Infinity` (`Math.max()` of no arguments). -/
noncomputable def jsMaxList (l : List JSNum) : JSNum :=
  l.foldr jsMax .negInf

/-- The `reduce` computing the dot product (line 790).  The model pairs
coordinates positionally; embeddings compared by the service all come from
the same embedding model and share one dimension (for a strictly shorter
`vecB` the source would poison the sum with `NaN` via `undefined`). -/
def dotProduct (vecA vecB : List ℝ) : ℝ :=
  (List.zipWith (fun a b => a * b) vecA vecB).sum

/-- The `reduce`-and-`Math.sqrt` computing a vector magnitude
(lines 791-792). -/
noncomputable def magnitude (vec : List ℝ) : ℝ :=
  Real.sqrt ((vec.map (fun a => a * a)).sum)

/-- Source method `cosineSimilarity` (lines 789-794):
`dotProduct / (magnitudeA * magnitudeB)` under JavaScript division. -/
noncomputable def cosineSimilarity (vecA vecB : List ℝ) : JSNum :=
  jsDiv (dotProduct vecA vecB) (magnitude vecA * magnitude vecB)

/-- The per-file inner loop of `computeSimilarities` (lines 312-316) for
one domain: `Math.max(...categoryEmbs.map(cat => cosineSimilarity(file,
cat)))`. -/
noncomputable def domainScore (fileEmbedding : List ℝ)
    (categoryEmbs : List (List ℝ)) : JSNum :=
  jsMaxList (categoryEmbs.map (fun cat => cosineSimilarity fileEmbedding cat))

/-- Source method `computeSimilarities` (lines 301-321) for one domain:
the association list of per-file scores, in file order. -/
noncomputable def computeSimilarities (fileEmbeddings : List (String × List ℝ))
    (categoryEmbs : List (List ℝ)) : List (String × JSNum) :=
  fileEmbeddings.map (fun f => (f.1, domainScore f.2 categoryEmbs))

/-- The runtime `sim >= threshold` comparison of line 380: false whenever
the similarity is `NaN`. -/
def jsGe (sim : JSNum) (threshold : ℚ) : Prop :=
  match sim with
  | .nan => False
  | .posInf => True
  | .negInf => False
  | .val x => (threshold : ℝ) ≤ x

/-- Boolean form of `jsGe`, as evaluated by the JavaScript runtime. -/
noncomputable def jsGeB (sim : JSNum) (threshold : ℚ) : Bool :=
  match sim with
  | .nan => false
  | .posInf => true
  | .negInf => false
  | .val x => if (threshold : ℝ) ≤ x then true else false

/-- The descending comparator `(a, b) => simB - simA` of line 381 as a
keep-`a`-before-`b` test.  A comparator returning `NaN` is treated by
`Array.prototype.sort` as a tie; after the threshold filter no `NaN`
remains, so ties only arise between equal keys and between infinities. -/
noncomputable def jsDescB (a b : JSNum) : Bool :=
  match a, b with
  | .nan, _ => true
  | _, .nan => true
  | .posInf, _ => true
  | _, .posInf => false
  | .negInf, .negInf => true
  | .negInf, .val _ => false
  | .val _, .negInf => true
  | .val x, .val y => if y ≤ x then true else false

/-- A Phase-1 candidate as produced at runtime value level:
`{ path, embeddingScore }` with an IEEE score. -/
structure FileCandidateJS where
  path : String
  embeddingScore : JSNum

/-- Source method `filterAndSortByThreshold` (lines 374-384) at the
runtime value level (IEEE similarity scores): the very function modelled
over `ℚ` above, here with the JavaScript `>=` and comparator
semantics made explicit. -/
noncomputable def filterAndSortByThresholdJS (fileSims : List (String × JSNum))
    (threshold : ℚ) (topK : ℕ) : List FileCandidateJS :=
  ((((fileSims.filter (fun p => jsGeB p.2 threshold)).mergeSort
      (fun a b => jsDescB a.2 b.2)).take topK).map
    (fun p => { path := p.1, embeddingScore := p.2 }))

/-! ### Helper lemmas -/

/-- The record produced by `computeHybridScore` satisfies the fusion
formula on its own fields. -/
theorem computeHybridScore_formula (c : FileCandidate) :
    (computeHybridScore c).hybridScore =
      (computeHybridScore c).embeddingScore *
        LLM_WEIGHT (computeHybridScore c).llmAssessment := rfl

/-- A merged candidate whose path has no Phase-2 entry carries no
assessment. -/
theorem mergePhaseResults_no_entry {phase1Files : List FileCandidate}
    {phase2Files : List FileAssessment} {c : FileCandidate}
    (hc : c ∈ mergePhaseResults phase1Files phase2Files)
    (hp : c.path ∉ phase2Files.map (fun f => f.path)) :
    c.llmAssessment = none := by
  rcases List.mem_map.mp hc with ⟨orig, _, rfl⟩
  have hnone : phase2Lookup phase2Files orig.path = none := by
    rw [phase2Lookup, List.find?_eq_none]
    intro x hx
    simp only [decide_eq_true_eq]
    intro hpath
    exact hp (List.mem_map.mpr ⟨x, List.mem_reverse.mp hx, hpath⟩)
  simp [hnone]

/-- The list scored inside `hybridScoreDomain` is sorted descending by
hybrid score after the merge sort. -/
theorem hybridScoreDomain_pairwise (p1 : List FileCandidate)
    (p2 : List FileAssessment) (config : HybridConfig) :
    (hybridScoreDomain p1 p2 config).Pairwise
      (fun a b => b.hybridScore ≤ a.hybridScore) := by
  have hs := @List.sorted_mergeSort HybridScoredFile
      (fun a b => decide (b.hybridScore ≤ a.hybridScore))
      (fun a b c hab hbc => by
        simp only [decide_eq_true_eq] at *
        exact le_trans hbc hab)
      (fun a b => by
        simp only [Bool.or_eq_true, decide_eq_true_eq]
        exact le_total b.hybridScore a.hybridScore)
      ((mergePhaseResults p1 p2).map computeHybridScore)
  have hs' := hs.imp (fun h => of_decide_eq_true h)
  exact hs'.filter _

/-- Membership in a `hybridScoreDomain` output implies clearing the
hybrid-score threshold. -/
theorem mem_hybridScoreDomain_threshold {p1 : List FileCandidate}
    {p2 : List FileAssessment} {config : HybridConfig} {f : HybridScoredFile}
    (hf : f ∈ hybridScoreDomain p1 p2 config) :
    config.hybridScoreThreshold ≤ f.hybridScore := by
  have := List.of_mem_filter hf
  exact of_decide_eq_true this

/-- Every file of a `hybridScoreDomain` output is the hybrid scoring of a
merged Phase-1 candidate. -/
theorem mem_hybridScoreDomain_source {p1 : List FileCandidate}
    {p2 : List FileAssessment} {config : HybridConfig} {f : HybridScoredFile}
    (hf : f ∈ hybridScoreDomain p1 p2 config) :
    ∃ c ∈ mergePhaseResults p1 p2, f = computeHybridScore c := by
  have h1 : f ∈ ((mergePhaseResults p1 p2).map computeHybridScore).mergeSort
      (fun a b => decide (b.hybridScore ≤ a.hybridScore)) :=
    List.mem_of_mem_filter hf
  have h2 : f ∈ (mergePhaseResults p1 p2).map computeHybridScore :=
    (List.mergeSort_perm _ _).subset h1
  rcases List.mem_map.mp h2 with ⟨c, hc, rfl⟩
  exact ⟨c, hc, rfl⟩

/-! ### C1: multiplicative fusion with the fixed weight table -/

/-- C1: in every domain, fusion computes
`hybridScore = embeddingScore * LLM_WEIGHT llmAssessment` exactly, and a
candidate whose path has no Phase-2 entry is assessed `IRRELEVANT` with
hybrid score `0`; the formula also holds for every file of the final
per-domain output. -/
theorem hybrid_score_fusion_exact (phase1Files : List FileCandidate)
    (phase2Files : List FileAssessment) :
    (∀ f ∈ (mergePhaseResults phase1Files phase2Files).map computeHybridScore,
        f.hybridScore = f.embeddingScore * LLM_WEIGHT f.llmAssessment ∧
        (f.path ∉ phase2Files.map (fun a => a.path) →
          f.llmAssessment = .IRRELEVANT ∧ f.hybridScore = 0)) ∧
    (∀ config : HybridConfig,
      ∀ f ∈ hybridScoreDomain phase1Files phase2Files config,
        f.hybridScore = f.embeddingScore * LLM_WEIGHT f.llmAssessment) := by
  constructor
  · intro f hf
    rcases List.mem_map.mp hf with ⟨c, hc, rfl⟩
    refine ⟨computeHybridScore_formula c, fun hp => ?_⟩
    have hpath : c.path ∉ phase2Files.map (fun a => a.path) := hp
    have hnone := mergePhaseResults_no_entry hc hpath
    constructor
    · simp [computeHybridScore, hnone]
    · simp [computeHybridScore, hnone, LLM_WEIGHT]
  · intro config f hf
    rcases mem_hybridScoreDomain_source hf with ⟨c, _, rfl⟩
    exact computeHybridScore_formula c

/-- Witness for C1 at a concrete merge: the single candidate has no
Phase-2 entry, is assessed `IRRELEVANT` and scores `0`. -/
theorem hybrid_score_fusion_exact_witness :
    (computeHybridScore ⟨"a", 1 / 2, none⟩).llmAssessment = .IRRELEVANT ∧
    (computeHybridScore ⟨"a", 1 / 2, none⟩).hybridScore = 0 :=
  (((hybrid_score_fusion_exact [⟨"a", 1 / 2, none⟩] []).1
    (computeHybridScore ⟨"a", 1 / 2, none⟩)
    (by simp [mergePhaseResults, phase2Lookup])).2 (by simp))

/-! ### C2: final per-domain output sorted descending and thresholded -/

/-- C2: for every domain, the fusion-phase output list is sorted in
descending order of `hybridScore` and every entry clears
`hybridScoreThreshold`. -/
theorem fusion_output_sorted_and_thresholded
    (phase1Results : EmbeddingPhaseResult) (phase2Results : LLMPhaseResult)
    (config : HybridConfig) :
    ∀ l ∈ [(hybridScoringPhase phase1Results phase2Results config).best_practices,
           (hybridScoringPhase phase1Results phase2Results config).functional_requirements,
           (hybridScoringPhase phase1Results phase2Results config).non_functional_requirements],
      l.Pairwise (fun a b => b.hybridScore ≤ a.hybridScore) ∧
      ∀ f ∈ l, config.hybridScoreThreshold ≤ f.hybridScore := by
  intro l hl
  simp only [List.mem_cons, List.mem_singleton, List.not_mem_nil, or_false] at hl
  rcases hl with h | h | h <;> subst h <;>
    exact ⟨hybridScoreDomain_pairwise _ _ _,
      fun f hf => mem_hybridScoreDomain_threshold hf⟩

/-- Witness for C2 at a concrete run with the default configuration. -/
theorem fusion_output_sorted_and_thresholded_witness :
    ((hybridScoringPhase ⟨[⟨"a", 1 / 2, none⟩], [], []⟩
        ⟨[⟨"a", .PRIMARY⟩], [], []⟩ DEFAULT_OPTIONS).best_practices).Pairwise
      (fun a b => b.hybridScore ≤ a.hybridScore) :=
  (fusion_output_sorted_and_thresholded ⟨[⟨"a", 1 / 2, none⟩], [], []⟩
    ⟨[⟨"a", .PRIMARY⟩], [], []⟩ DEFAULT_OPTIONS _ (by simp)).1

/-! ### C3: adaptive thresholding stops at the first fitting retry value -/

/-- When some retry threshold reaches the minimum candidate count, the
retry loop returns the selection at the first such threshold in list
order. -/
theorem retrySelect_found (fileSims : List (String × ℚ)) (topK minC : ℕ) :
    ∀ (ts : List ℚ) (acc : List FileCandidate) (t0 : ℚ),
      ts.find? (fun t =>
        decide (minC ≤ (filterAndSortByThreshold fileSims t topK).length)) = some t0 →
      retrySelect fileSims topK minC ts acc =
        filterAndSortByThreshold fileSims t0 topK := by
  intro ts
  induction ts with
  | nil => intro acc t0 h; simp at h
  | cons t ts ih =>
    intro acc t0 h
    by_cases hc : minC ≤ (filterAndSortByThreshold fileSims t topK).length
    · rw [List.find?_cons_of_pos _ (by simpa using hc)] at h
      injection h with h
      subst h
      simp [retrySelect, hc]
    · rw [List.find?_cons_of_neg _ (by simpa using hc)] at h
      simp only [retrySelect, hc, if_false]
      exact ih _ t0 h

/-- When no retry threshold reaches the minimum candidate count, the
retry loop returns the selection at the last (lowest) retry threshold. -/
theorem retrySelect_exhausted (fileSims : List (String × ℚ)) (topK minC : ℕ) :
    ∀ (ts : List ℚ) (acc : List FileCandidate) (hne : ts ≠ []),
      ts.find? (fun t =>
        decide (minC ≤ (filterAndSortByThreshold fileSims t topK).length)) = none →
      retrySelect fileSims topK minC ts acc =
        filterAndSortByThreshold fileSims (ts.getLast hne) topK := by
  intro ts
  induction ts with
  | nil => intro acc hne; exact absurd rfl hne
  | cons t ts ih =>
    intro acc hne h
    have hc : ¬ minC ≤ (filterAndSortByThreshold fileSims t topK).length := by
      intro hc
      rw [List.find?_cons_of_pos _ (by simpa using hc)] at h
      exact Option.noConfusion h
    rw [List.find?_cons_of_neg _ (by simpa using hc)] at h
    rcases eq_or_ne ts [] with rfl | hts
    · simp [retrySelect, hc]
    · rw [List.getLast_cons hts]
      simp only [retrySelect, hc, if_false]
      exact ih _ hts h

/-- C3: when too few files clear the default threshold, candidate
selection returns the selection at the first retry threshold (in the given
order) whose candidate count reaches the minimum; and when none reaches
it, the selection at the last retry threshold. -/
theorem adaptive_threshold_first_fit (fileSims : List (String × ℚ))
    (config : HybridConfig)
    (hlow : (filterAndSortByThreshold fileSims config.embeddingThreshold
      config.embeddingTopK).length < config.minCandidatesForPhase2) :
    (∀ t0 : ℚ,
        config.embeddingRetryThresholds.find? (fun t =>
          decide (config.minCandidatesForPhase2 ≤
            (filterAndSortByThreshold fileSims t config.embeddingTopK).length)) =
          some t0 →
        selectForDomain fileSims config =
          filterAndSortByThreshold fileSims t0 config.embeddingTopK) ∧
    (∀ hne : config.embeddingRetryThresholds ≠ [],
        config.embeddingRetryThresholds.find? (fun t =>
          decide (config.minCandidatesForPhase2 ≤
            (filterAndSortByThreshold fileSims t config.embeddingTopK).length)) =
          none →
        selectForDomain fileSims config =
          filterAndSortByThreshold fileSims
            (config.embeddingRetryThresholds.getLast hne) config.embeddingTopK) := by
  constructor
  · intro t0 h
    rw [selectForDomain, if_pos hlow]
    exact retrySelect_found fileSims config.embeddingTopK
      config.minCandidatesForPhase2 _ _ t0 h
  · intro hne h
    rw [selectForDomain, if_pos hlow]
    exact retrySelect_exhausted fileSims config.embeddingTopK
      config.minCandidatesForPhase2 _ _ hne h

/-- Witness for C3: with minimum 2, scores 0.5 and 0.4 fail the default
threshold 0.55 and the first retry 0.45; the loop stops at 0.35, the
first retry threshold with 2 candidates. -/
theorem adaptive_threshold_first_fit_witness :
    selectForDomain [("a", 1 / 2), ("b", 2 / 5)]
        { DEFAULT_OPTIONS with minCandidatesForPhase2 := 2 } =
      filterAndSortByThreshold [("a", 1 / 2), ("b", 2 / 5)] (7 / 20) 20 :=
  (adaptive_threshold_first_fit [("a", 1 / 2), ("b", 2 / 5)]
    { DEFAULT_OPTIONS with minCandidatesForPhase2 := 2 }
    (by norm_num [filterAndSortByThreshold, List.mergeSort, DEFAULT_OPTIONS])).1
    (7 / 20)
    (by norm_num [filterAndSortByThreshold, List.mergeSort, DEFAULT_OPTIONS,
      List.find?])

/-! ### C4: what assessment-response validation accepts -/

/-- The acceptance condition of `validateLlmOutput` is exactly set
equality of response paths and expected paths — membership-wise, blind to
multiplicity. -/
theorem validateLlmOutput_isOk_iff (output : LLMPhaseResult)
    (expected : List String) :
    (validateLlmOutput output expected).isOk = true ↔
      ∀ p : String, p ∈ allResponsePaths output ↔ p ∈ expected := by
  simp only [validateLlmOutput]
  split
  · rename_i hcond
    simp only [Except.isOk]
    constructor
    · intro h; exact Bool.noConfusion h
    · intro hall
      exfalso
      rcases hcond with h1 | h1
      · rw [List.length_pos] at h1
        rcases List.exists_mem_of_ne_nil _ h1 with ⟨p, hp⟩
        rcases List.mem_filter.mp hp with ⟨hpe, hpd⟩
        exact (of_decide_eq_true hpd) ((hall p).mpr hpe)
      · rw [List.length_pos] at h1
        rcases List.exists_mem_of_ne_nil _ h1 with ⟨p, hp⟩
        rcases List.mem_filter.mp hp with ⟨hpe, hpd⟩
        exact (of_decide_eq_true hpd) ((hall p).mp hpe)
  · rename_i hcond
    rw [not_or] at hcond
    rcases hcond with ⟨h1, h2⟩
    rw [List.length_pos, ne_eq, not_not, List.filter_eq_nil_iff] at h1 h2
    simp only [Except.isOk]
    constructor
    · intro _ p
      constructor
      · intro hp
        by_contra hnp
        exact (h2 p hp) (by simpa using hnp)
      · intro hp
        by_contra hnp
        exact (h1 p hp) (by simpa using hnp)
    · intro _; rfl

/-- Counterexample to C4: a response in which the sole expected path
appears twice is accepted by `validateLlmOutput` — set-based validation
does not detect duplicates, contradicting the "exactly once"
acceptance condition. -/
theorem validate_accepts_duplicated_path :
    (validateLlmOutput
        ⟨[⟨"a", .PRIMARY⟩, ⟨"a", .SECONDARY⟩], [], []⟩ ["a"]).isOk = true ∧
    (allResponsePaths
        ⟨[⟨"a", .PRIMARY⟩, ⟨"a", .SECONDARY⟩], [], []⟩).count "a" = 2 := by
  decide

/-- C4 (amended): validation accepts a response iff the set of paths in
it equals the expected candidate set — every expected path appears at
least once and no unexpected path appears; multiplicity is not checked.
A rejected response fails its attempt (`runAttempt`), which triggers the
retry. -/
theorem validate_accepts_iff_path_sets_match (output : LLMPhaseResult)
    (expected : List String) :
    ((validateLlmOutput output expected).isOk = true ↔
      ∀ p : String, p ∈ allResponsePaths output ↔ p ∈ expected) ∧
    (runAttempt expected (Except.ok output)).isOk =
      (validateLlmOutput output expected).isOk := by
  refine ⟨validateLlmOutput_isOk_iff output expected, ?_⟩
  cases h : validateLlmOutput output expected with
  | ok u =>
    cases u
    simp [runAttempt, h, Except.isOk, Except.toBool, Except.map, Except.bind,
      bind, Functor.map, pure, Except.pure]
  | error e =>
    simp [runAttempt, h, Except.isOk, Except.toBool, Except.map, Except.bind,
      bind, Functor.map]

/-- Witness for C4 (amended) at a concrete accepted response. -/
theorem validate_accepts_iff_path_sets_match_witness :
    (validateLlmOutput ⟨[⟨"a", .PRIMARY⟩], [], []⟩ ["a"]).isOk = true :=
  (validate_accepts_iff_path_sets_match
    ⟨[⟨"a", .PRIMARY⟩], [], []⟩ ["a"]).1.mpr (by simp [allResponsePaths])

/-! ### C5: per-domain coverage of the assessment output -/

/-- A successful attempt returns an output accepted by
`validateLlmOutput`. -/
theorem runAttempt_ok {expected : List String} {a : Except String LLMPhaseResult}
    {output : LLMPhaseResult} (h : runAttempt expected a = .ok output) :
    (validateLlmOutput output expected).isOk = true := by
  cases a with
  | error e => simp [runAttempt, Except.bind, bind] at h
  | ok o =>
    cases hv : validateLlmOutput o expected with
    | ok u =>
      cases u
      simp [runAttempt, hv, bind, Except.bind, Except.map, Functor.map, pure,
        Except.pure] at h
      rw [← h, hv]
      rfl
    | error e =>
      simp [runAttempt, hv, bind, Except.bind, Except.map, Functor.map] at h

/-- The fallback assessment covers, domain by domain, exactly the
Phase-1 candidate paths. -/
theorem allResponsePaths_fallback (p1 : EmbeddingPhaseResult) :
    allResponsePaths (createFallbackAssessment p1) = candidatePathsOf p1 := by
  simp [allResponsePaths, createFallbackAssessment, candidatePathsOf, assessFile,
    List.map_append, List.map_map, Function.comp_def]

/-- When all three attempts fail, `llmPhase` returns the fallback
assessment. -/
theorem llmPhase_all_fail (p1 : EmbeddingPhaseResult)
    (a1 a2 a3 : Except String LLMPhaseResult)
    (h1 : (runAttempt (candidatePathsOf p1) a1).isOk = false)
    (h2 : (runAttempt (candidatePathsOf p1) a2).isOk = false)
    (h3 : (runAttempt (candidatePathsOf p1) a3).isOk = false) :
    llmPhase p1 a1 a2 a3 = createFallbackAssessment p1 := by
  cases hr1 : runAttempt (candidatePathsOf p1) a1 with
  | ok o => rw [hr1] at h1; simp [Except.isOk, Except.toBool] at h1
  | error e1 =>
    cases hr2 : runAttempt (candidatePathsOf p1) a2 with
    | ok o => rw [hr2] at h2; simp [Except.isOk, Except.toBool] at h2
    | error e2 =>
      cases hr3 : runAttempt (candidatePathsOf p1) a3 with
      | ok o => rw [hr3] at h3; simp [Except.isOk, Except.toBool] at h3
      | error e3 => simp [llmPhase, hr1, hr2, hr3]

/-- Counterexample to C5: a validated response may move a candidate to a
different domain.  With the single Phase-1 candidate `"a"` proposed for
`best_practices`, a response listing `"a"` only under
`functional_requirements` passes validation and becomes the assessment
output, whose `best_practices` path set differs from Phase 1's. -/
theorem llm_phase_cross_domain_counterexample :
    llmPhase ⟨[⟨"a", 1 / 2, none⟩], [], []⟩
        (.ok ⟨[], [⟨"a", .PRIMARY⟩], []⟩) (.error "e") (.error "e") =
      ⟨[], [⟨"a", .PRIMARY⟩], []⟩ ∧
    (llmPhase ⟨[⟨"a", 1 / 2, none⟩], [], []⟩
        (.ok ⟨[], [⟨"a", .PRIMARY⟩], []⟩) (.error "e") (.error "e")).best_practices.map
        (fun f => f.path) ≠
      (EmbeddingPhaseResult.best_practices ⟨[⟨"a", 1 / 2, none⟩], [], []⟩).map
        (fun f => f.path) := by
  decide

/-- C5 (amended): the assessment-phase output covers exactly the union
of the Phase-1 candidate paths across domains — the path set of the
validated (or fallback) Phase-2 result equals the union of Phase-1
candidate paths; equality per individual domain is not guaranteed. -/
theorem llm_phase_union_paths_eq (phase1Results : EmbeddingPhaseResult)
    (a1 a2 a3 : Except String LLMPhaseResult) :
    ∀ p : String,
      p ∈ allResponsePaths (llmPhase phase1Results a1 a2 a3) ↔
        p ∈ candidatePathsOf phase1Results := by
  intro p
  cases hr1 : runAttempt (candidatePathsOf phase1Results) a1 with
  | ok o =>
    have hv := runAttempt_ok hr1
    have hiff := (validateLlmOutput_isOk_iff o (candidatePathsOf phase1Results)).mp hv p
    simpa [llmPhase, hr1] using hiff
  | error e1 =>
    cases hr2 : runAttempt (candidatePathsOf phase1Results) a2 with
    | ok o =>
      have hv := runAttempt_ok hr2
      have hiff := (validateLlmOutput_isOk_iff o (candidatePathsOf phase1Results)).mp hv p
      simpa [llmPhase, hr1, hr2] using hiff
    | error e2 =>
      cases hr3 : runAttempt (candidatePathsOf phase1Results) a3 with
      | ok o =>
        have hv := runAttempt_ok hr3
        have hiff := (validateLlmOutput_isOk_iff o (candidatePathsOf phase1Results)).mp hv p
        simpa [llmPhase, hr1, hr2, hr3] using hiff
      | error e3 =>
        rw [llmPhase]
        simp only [hr1, hr2, hr3]
        rw [allResponsePaths_fallback]

/-- Witness for C5 (amended) at a concrete fallback run. -/
theorem llm_phase_union_paths_eq_witness :
    "a" ∈ allResponsePaths (llmPhase ⟨[⟨"a", 1 / 2, none⟩], [], []⟩
        (.error "e") (.error "e") (.error "e")) ↔
      "a" ∈ candidatePathsOf ⟨[⟨"a", 1 / 2, none⟩], [], []⟩ :=
  llm_phase_union_paths_eq ⟨[⟨"a", 1 / 2, none⟩], [], []⟩
    (.error "e") (.error "e") (.error "e") "a"

/-! ### C6: the deterministic fallback bands -/

/-- Counterexample to C6: at embedding score exactly `0.4` — a score
lying in the claimed `0.4`-`0.6` band — the fallback assigns
`SUPPORTING`, not `SECONDARY` (the source tests `score > 0.4`
strictly). -/
theorem fallback_band_boundary_counterexample :
    (assessFile ⟨"a", 2 / 5, none⟩).assessment = .SUPPORTING ∧
    (assessFile ⟨"a", 2 / 5, none⟩).assessment ≠ .SECONDARY ∧
    ((2 : ℚ) / 5 ≤ 2 / 5 ∧ (2 : ℚ) / 5 ≤ 3 / 5) := by
  refine ⟨by norm_num [assessFile], ?_, by norm_num, by norm_num⟩
  have h : (assessFile ⟨"a", 2 / 5, none⟩).assessment = .SUPPORTING := by
    norm_num [assessFile]
  rw [h]
  decide

/-- C6 (amended): when all 3 classification attempts fail, the fallback
assigns each candidate a tier as a pure, deterministic function of its
embedding score with the bands `score > 0.6 → PRIMARY`,
`0.4 < score ≤ 0.6 → SECONDARY` and `score ≤ 0.4 → SUPPORTING`; equal
scores always receive equal tiers. -/
theorem fallback_tiers_deterministic_bands (phase1Results : EmbeddingPhaseResult)
    (a1 a2 a3 : Except String LLMPhaseResult)
    (h1 : (runAttempt (candidatePathsOf phase1Results) a1).isOk = false)
    (h2 : (runAttempt (candidatePathsOf phase1Results) a2).isOk = false)
    (h3 : (runAttempt (candidatePathsOf phase1Results) a3).isOk = false) :
    llmPhase phase1Results a1 a2 a3 = createFallbackAssessment phase1Results ∧
    (∀ file : FileCandidate,
      ((3 / 5 : ℚ) < file.embeddingScore →
        (assessFile file).assessment = .PRIMARY) ∧
      ((2 / 5 : ℚ) < file.embeddingScore → file.embeddingScore ≤ 3 / 5 →
        (assessFile file).assessment = .SECONDARY) ∧
      (file.embeddingScore ≤ 2 / 5 →
        (assessFile file).assessment = .SUPPORTING)) ∧
    (∀ f g : FileCandidate, f.embeddingScore = g.embeddingScore →
      (assessFile f).assessment = (assessFile g).assessment) := by
  refine ⟨llmPhase_all_fail _ _ _ _ h1 h2 h3, fun file => ?_, fun f g hfg => ?_⟩
  · refine ⟨fun h => ?_, fun hlo hhi => ?_, fun h => ?_⟩
    · simp [assessFile, h]
    · have hn : ¬ (3 / 5 : ℚ) < file.embeddingScore := not_lt.mpr hhi
      simp [assessFile, hn, hlo]
    · have hn1 : ¬ (3 / 5 : ℚ) < file.embeddingScore :=
        not_lt.mpr (le_trans h (by norm_num))
      have hn2 : ¬ (2 / 5 : ℚ) < file.embeddingScore := not_lt.mpr h
      simp [assessFile, hn1, hn2]
  · simp [assessFile, hfg]

/-- Witness for C6 (amended) at a concrete all-attempts-failed run, with
the band applied at score `0.5`. -/
theorem fallback_tiers_deterministic_bands_witness :
    llmPhase ⟨[⟨"a", 1 / 2, none⟩], [], []⟩
        (.error "e") (.error "e") (.error "e") =
      createFallbackAssessment ⟨[⟨"a", 1 / 2, none⟩], [], []⟩ ∧
    (assessFile ⟨"b", 1 / 2, none⟩).assessment = .SECONDARY := by
  have h := fallback_tiers_deterministic_bands ⟨[⟨"a", 1 / 2, none⟩], [], []⟩
    (.error "e") (.error "e") (.error "e") (by decide) (by decide) (by decide)
  exact ⟨h.1, (h.2.1 ⟨"b", 1 / 2, none⟩).2.1 (by norm_num) (by norm_num)⟩

/-! ### C7: Phase-2 failures never reach the caller -/

/-- C7: for every sequence of three failed classification attempts
(provider error, unparsable output or validation mismatch), the pipeline
continues with the deterministic fallback assessment and `execute` still
returns the complete `RelevanceMappingResult` built from it — no error
escapes Phase 2. -/
theorem phase2_failures_never_propagate (phase1Results : EmbeddingPhaseResult)
    (a1 a2 a3 : Except String LLMPhaseResult) (config : HybridConfig)
    (processingTime : ℕ)
    (h1 : (runAttempt (candidatePathsOf phase1Results) a1).isOk = false)
    (h2 : (runAttempt (candidatePathsOf phase1Results) a2).isOk = false)
    (h3 : (runAttempt (candidatePathsOf phase1Results) a3).isOk = false) :
    llmPhase phase1Results a1 a2 a3 = createFallbackAssessment phase1Results ∧
    execute phase1Results a1 a2 a3 config processingTime =
      { best_practices := (hybridScoringPhase phase1Results
          (createFallbackAssessment phase1Results) config).best_practices
        functional_requirements := (hybridScoringPhase phase1Results
          (createFallbackAssessment phase1Results) config).functional_requirements
        non_functional_requirements := (hybridScoringPhase phase1Results
          (createFallbackAssessment phase1Results) config).non_functional_requirements
        metadata :=
          { phase1_total_candidates := countCandidatesEmbedding phase1Results
            phase2_assessed_files :=
              countCandidatesLlm (createFallbackAssessment phase1Results)
            final_included_files := countIncluded (hybridScoringPhase phase1Results
              (createFallbackAssessment phase1Results) config)
            processing_time_ms := processingTime } } := by
  have hfb := llmPhase_all_fail _ _ _ _ h1 h2 h3
  exact ⟨hfb, by simp only [execute, hfb]⟩

/-- Witness for C7 at a concrete all-attempts-failed run with the
default configuration. -/
theorem phase2_failures_never_propagate_witness :
    execute ⟨[⟨"a", 1 / 2, none⟩], [], []⟩ (.error "e") (.error "e") (.error "e")
        DEFAULT_OPTIONS 5 =
      { best_practices := (hybridScoringPhase ⟨[⟨"a", 1 / 2, none⟩], [], []⟩
          (createFallbackAssessment ⟨[⟨"a", 1 / 2, none⟩], [], []⟩)
          DEFAULT_OPTIONS).best_practices
        functional_requirements := (hybridScoringPhase ⟨[⟨"a", 1 / 2, none⟩], [], []⟩
          (createFallbackAssessment ⟨[⟨"a", 1 / 2, none⟩], [], []⟩)
          DEFAULT_OPTIONS).functional_requirements
        non_functional_requirements := (hybridScoringPhase ⟨[⟨"a", 1 / 2, none⟩], [], []⟩
          (createFallbackAssessment ⟨[⟨"a", 1 / 2, none⟩], [], []⟩)
          DEFAULT_OPTIONS).non_functional_requirements
        metadata :=
          { phase1_total_candidates :=
              countCandidatesEmbedding ⟨[⟨"a", 1 / 2, none⟩], [], []⟩
            phase2_assessed_files := countCandidatesLlm
              (createFallbackAssessment ⟨[⟨"a", 1 / 2, none⟩], [], []⟩)
            final_included_files := countIncluded
              (hybridScoringPhase ⟨[⟨"a", 1 / 2, none⟩], [], []⟩
                (createFallbackAssessment ⟨[⟨"a", 1 / 2, none⟩], [], []⟩)
                DEFAULT_OPTIONS)
            processing_time_ms := 5 } } :=
  (phase2_failures_never_propagate ⟨[⟨"a", 1 / 2, none⟩], [], []⟩
    (.error "e") (.error "e") (.error "e") DEFAULT_OPTIONS 5
    (by decide) (by decide) (by decide)).2

/-! ### C8: the final result never leaves Phase 1's candidate set -/

/-- Every file of a per-domain fusion output descends from a Phase-1
candidate of that domain, with path and embedding score preserved. -/
theorem hybridScoreDomain_from_phase1 {phase1Files : List FileCandidate}
    {phase2Files : List FileAssessment} {config : HybridConfig}
    {f : HybridScoredFile} (hf : f ∈ hybridScoreDomain phase1Files phase2Files config) :
    ∃ c ∈ phase1Files, c.path = f.path ∧ c.embeddingScore = f.embeddingScore := by
  rcases mem_hybridScoreDomain_source hf with ⟨c, hc, rfl⟩
  rcases List.mem_map.mp hc with ⟨orig, ho, rfl⟩
  exact ⟨orig, ho, rfl, rfl⟩

/-- C8: for every run and every domain, each `HybridScoredFile` of the
final result corresponds to a `FileCandidate` that survived Phase 1 for
that same domain, whatever the Phase-2 result contains. -/
theorem final_files_only_from_phase1 (phase1Results : EmbeddingPhaseResult)
    (phase2Results : LLMPhaseResult) (config : HybridConfig) :
    (∀ f ∈ (hybridScoringPhase phase1Results phase2Results config).best_practices,
       ∃ c ∈ phase1Results.best_practices,
         c.path = f.path ∧ c.embeddingScore = f.embeddingScore) ∧
    (∀ f ∈ (hybridScoringPhase phase1Results phase2Results config).functional_requirements,
       ∃ c ∈ phase1Results.functional_requirements,
         c.path = f.path ∧ c.embeddingScore = f.embeddingScore) ∧
    (∀ f ∈ (hybridScoringPhase phase1Results phase2Results config).non_functional_requirements,
       ∃ c ∈ phase1Results.non_functional_requirements,
         c.path = f.path ∧ c.embeddingScore = f.embeddingScore) :=
  ⟨fun _ hf => hybridScoreDomain_from_phase1 hf,
   fun _ hf => hybridScoreDomain_from_phase1 hf,
   fun _ hf => hybridScoreDomain_from_phase1 hf⟩

/-- Witness for C8 at a concrete run whose final output is nonempty. -/
theorem final_files_only_from_phase1_witness :
    ∃ c ∈ (EmbeddingPhaseResult.best_practices ⟨[⟨"a", 1 / 2, none⟩], [], []⟩),
      c.path = (computeHybridScore ⟨"a", 1 / 2, some .PRIMARY⟩).path ∧
      c.embeddingScore =
        (computeHybridScore ⟨"a", 1 / 2, some .PRIMARY⟩).embeddingScore :=
  (final_files_only_from_phase1 ⟨[⟨"a", 1 / 2, none⟩], [], []⟩
    ⟨[⟨"a", .PRIMARY⟩], [], []⟩ DEFAULT_OPTIONS).1
    (computeHybridScore ⟨"a", 1 / 2, some .PRIMARY⟩)
    (by norm_num [hybridScoringPhase, hybridScoreDomain, mergePhaseResults,
      phase2Lookup, computeHybridScore, List.mergeSort, LLM_WEIGHT,
      DEFAULT_OPTIONS, List.find?])

/-! ### C9: the per-domain score is the maximum over categories -/

/-- `-Infinity` is the identity of binary `Math.max`. -/
theorem jsMax_negInf_right (a : JSNum) : jsMax a .negInf = a := by
  cases a <;> rfl

/-- Each argument of `Math.max` is below the result. -/
theorem jsLe_jsMax_left (a b : JSNum) : jsLe a (jsMax a b) := by
  cases a <;> cases b <;> simp [jsMax, jsLe, le_max_left]

/-- `Math.max` is monotone in its second argument with respect to
`jsLe`. -/
theorem jsLe_jsMax_mono {a b : JSNum} (c : JSNum) (h : jsLe a b) :
    jsLe a (jsMax c b) := by
  cases a <;> cases b <;> cases c <;> simp_all [jsMax, jsLe, le_max_iff]

/-- Binary `Math.max` returns one of its arguments. -/
theorem jsMax_choice (a b : JSNum) : jsMax a b = a ∨ jsMax a b = b := by
  cases a <;> cases b <;>
    first
      | exact Or.inl rfl
      | exact Or.inr rfl
      | (rename_i x y
         rcases max_choice x y with h | h
         · exact Or.inl (by simp [jsMax, h])
         · exact Or.inr (by simp [jsMax, h]))

/-- Every element of a list is below its `Math.max`. -/
theorem jsLe_jsMaxList {l : List JSNum} {a : JSNum} (ha : a ∈ l) :
    jsLe a (jsMaxList l) := by
  induction l with
  | nil => cases ha
  | cons x xs ih =>
    rcases List.mem_cons.mp ha with rfl | hmem
    · exact jsLe_jsMax_left a (jsMaxList xs)
    · exact jsLe_jsMax_mono x (ih hmem)

/-- The `Math.max` of a nonempty list is one of its elements. -/
theorem jsMaxList_mem : ∀ {l : List JSNum}, l ≠ [] → jsMaxList l ∈ l := by
  intro l
  induction l with
  | nil => intro h; exact absurd rfl h
  | cons x xs ih =>
    intro _
    rcases eq_or_ne xs [] with rfl | hxs
    · show jsMax x (jsMaxList []) ∈ [x]
      rw [show jsMaxList [] = .negInf from rfl, jsMax_negInf_right]
      exact List.mem_singleton.mpr rfl
    · rcases jsMax_choice x (jsMaxList xs) with h | h
      · show jsMax x (jsMaxList xs) ∈ x :: xs
        rw [h]; exact List.mem_cons_self x xs
      · show jsMax x (jsMaxList xs) ∈ x :: xs
        rw [h]; exact List.mem_cons_of_mem x (ih hxs)

/-- C9: for every file and every domain with at least one category, the
file's score for the domain is the maximum of the cosine similarities to
that domain's categories: it dominates every one of them and is attained
by one of them. -/
theorem domain_score_is_max_over_categories (fileEmbedding : List ℝ)
    (categoryEmbs : List (List ℝ)) (hne : categoryEmbs ≠ []) :
    (∀ cat ∈ categoryEmbs,
        jsLe (cosineSimilarity fileEmbedding cat)
          (domainScore fileEmbedding categoryEmbs)) ∧
    ∃ cat ∈ categoryEmbs,
        cosineSimilarity fileEmbedding cat =
          domainScore fileEmbedding categoryEmbs := by
  constructor
  · intro cat hcat
    exact jsLe_jsMaxList (List.mem_map.mpr ⟨cat, hcat, rfl⟩)
  · have hmem := jsMaxList_mem
      (show categoryEmbs.map (fun cat => cosineSimilarity fileEmbedding cat) ≠ []
        from by simpa using hne)
    rcases List.mem_map.mp hmem with ⟨cat, hcat, heq⟩
    exact ⟨cat, hcat, heq⟩

/-- Witness for C9 at one-dimensional concrete embeddings. -/
theorem domain_score_is_max_over_categories_witness :
    jsLe (cosineSimilarity [(1 : ℝ)] [(1 : ℝ)])
      (domainScore [(1 : ℝ)] [[(1 : ℝ)]]) :=
  (domain_score_is_max_over_categories [(1 : ℝ)] [[(1 : ℝ)]] (by simp)).1
    [(1 : ℝ)] (by simp)

/-! ### C10: zero-magnitude embeddings, NaN, and silent exclusion -/

/-- A list of reals whose sum of squares is zero is all zeros. -/
theorem sum_sq_eq_zero : ∀ {l : List ℝ},
    (l.map (fun a => a * a)).sum = 0 → ∀ a ∈ l, a = 0 := by
  intro l
  induction l with
  | nil => simp
  | cons x xs ih =>
    intro h
    rw [List.map_cons, List.sum_cons] at h
    have hx : 0 ≤ x * x := mul_self_nonneg x
    have hs : 0 ≤ (xs.map (fun a => a * a)).sum := by
      apply List.sum_nonneg
      intro y hy
      rcases List.mem_map.mp hy with ⟨z, _, rfl⟩
      exact mul_self_nonneg z
    have h0 : x * x = 0 ∧ (xs.map (fun a => a * a)).sum = 0 :=
      (add_eq_zero_iff_of_nonneg hx hs).mp h
    intro a ha
    rcases List.mem_cons.mp ha with rfl | hmem
    · exact mul_self_eq_zero.mp h0.1
    · exact ih h0.2 a hmem

/-- A vector of magnitude zero is the all-zero vector. -/
theorem magnitude_eq_zero {v : List ℝ} (h : magnitude v = 0) :
    ∀ a ∈ v, a = 0 := by
  apply sum_sq_eq_zero
  have hnn : 0 ≤ (v.map (fun a => a * a)).sum := by
    apply List.sum_nonneg
    intro y hy
    rcases List.mem_map.mp hy with ⟨z, _, rfl⟩
    exact mul_self_nonneg z
  rw [magnitude] at h
  exact (Real.sqrt_eq_zero hnn).mp h

/-- The dot product against an all-zero left factor is zero. -/
theorem dotProduct_zero_left : ∀ (vecA vecB : List ℝ),
    (∀ a ∈ vecA, a = 0) → dotProduct vecA vecB = 0
  | [], _, _ => by simp [dotProduct]
  | _ :: _, [], _ => by simp [dotProduct]
  | x :: xs, y :: ys, h => by
    have hx := h x (List.mem_cons_self x xs)
    have ih := dotProduct_zero_left xs ys
      (fun a ha => h a (List.mem_cons_of_mem x ha))
    rw [dotProduct] at ih ⊢
    rw [List.zipWith_cons_cons, List.sum_cons, hx, zero_mul, zero_add]
    exact ih

/-- The dot product against an all-zero right factor is zero. -/
theorem dotProduct_zero_right : ∀ (vecA vecB : List ℝ),
    (∀ b ∈ vecB, b = 0) → dotProduct vecA vecB = 0
  | [], _, _ => by simp [dotProduct]
  | _ :: _, [], _ => by simp [dotProduct]
  | x :: xs, y :: ys, h => by
    have hy := h y (List.mem_cons_self y ys)
    have ih := dotProduct_zero_right xs ys
      (fun b hb => h b (List.mem_cons_of_mem y hb))
    rw [dotProduct] at ih ⊢
    rw [List.zipWith_cons_cons, List.sum_cons, hy, mul_zero, zero_add]
    exact ih

/-- Cosine similarity against a zero-magnitude left vector is `0 / 0`,
hence `NaN`. -/
theorem cosineSimilarity_nan_left {vecA : List ℝ} (vecB : List ℝ)
    (h : magnitude vecA = 0) : cosineSimilarity vecA vecB = .nan := by
  have hdot : dotProduct vecA vecB = 0 :=
    dotProduct_zero_left vecA vecB (magnitude_eq_zero h)
  simp [cosineSimilarity, jsDiv, h, hdot]

/-- Cosine similarity against a zero-magnitude right vector is `0 / 0`,
hence `NaN`. -/
theorem cosineSimilarity_nan_right (vecA : List ℝ) {vecB : List ℝ}
    (h : magnitude vecB = 0) : cosineSimilarity vecA vecB = .nan := by
  have hdot : dotProduct vecA vecB = 0 :=
    dotProduct_zero_right vecA vecB (magnitude_eq_zero h)
  simp [cosineSimilarity, jsDiv, h, hdot]

/-- `NaN` absorbs on the left of `Math.max`. -/
theorem jsMax_nan_left (b : JSNum) : jsMax .nan b = .nan := by
  cases b <;> rfl

/-- `Math.max` of a nonempty all-`NaN` list is `NaN`. -/
theorem jsMaxList_all_nan : ∀ {l : List JSNum},
    (∀ x ∈ l, x = JSNum.nan) → l ≠ [] → jsMaxList l = .nan := by
  intro l
  induction l with
  | nil => intro _ h; exact absurd rfl h
  | cons x xs =>
    intro hall _
    have hx := hall x (List.mem_cons_self x xs)
    subst hx
    exact jsMax_nan_left (jsMaxList xs)

/-- C10: a file (or category) embedding of zero magnitude — the empty
vector included — makes `cosineSimilarity` produce `NaN` rather than a
real value; `NaN` fails every `>= threshold` comparison, the per-domain
score of such a file is `NaN`, and the file is silently excluded from the
candidate selection of every domain instead of raising an error. -/
theorem zero_magnitude_file_silently_excluded (vecA vecB : List ℝ)
    (hzero : magnitude vecA = 0) (categoryEmbs : List (List ℝ))
    (hne : categoryEmbs ≠ []) (fileSims : List (String × JSNum))
    (threshold : ℚ) (topK : ℕ) (p : String)
    (hp : ∀ s, (p, s) ∈ fileSims → s = JSNum.nan) :
    magnitude ([] : List ℝ) = 0 ∧
    cosineSimilarity vecA vecB = .nan ∧
    cosineSimilarity vecB vecA = .nan ∧
    (∀ t : ℚ, ¬ jsGe JSNum.nan t) ∧
    (∀ x : ℝ, JSNum.nan ≠ JSNum.val x) ∧
    domainScore vecA categoryEmbs = .nan ∧
    ∀ c ∈ filterAndSortByThresholdJS fileSims threshold topK, c.path ≠ p := by
  refine ⟨by simp [magnitude], cosineSimilarity_nan_left vecB hzero,
    cosineSimilarity_nan_right vecB hzero, fun t h => h, fun x h => JSNum.noConfusion h,
    ?_, ?_⟩
  · apply jsMaxList_all_nan
    · intro s hs
      rcases List.mem_map.mp hs with ⟨cat, _, rfl⟩
      exact cosineSimilarity_nan_left cat hzero
    · simpa using hne
  · intro c hc hcp
    rcases List.mem_map.mp hc with ⟨q, hq, rfl⟩
    have hq1 := List.mem_of_mem_take hq
    have hq2 : q ∈ fileSims.filter (fun r => jsGeB r.2 threshold) :=
      (List.mergeSort_perm _ _).subset hq1
    rcases List.mem_filter.mp hq2 with ⟨hqs, hge⟩
    have hpair : (q.1, q.2) ∈ fileSims := by simpa using hqs
    rw [show q.1 = p from hcp] at hpair
    rw [hp q.2 hpair] at hge
    exact Bool.noConfusion hge

/-- Witness for C10: the zero vector `[0]` against `[1]`, and a file
whose only similarity entry is `NaN`, at the default threshold. -/
theorem zero_magnitude_file_silently_excluded_witness :
    cosineSimilarity [(0 : ℝ)] [(1 : ℝ)] = .nan ∧
    domainScore [(0 : ℝ)] [[(1 : ℝ)]] = .nan ∧
    ¬ jsGe JSNum.nan (11 / 20) := by
  have h := zero_magnitude_file_silently_excluded [(0 : ℝ)] [(1 : ℝ)]
    (by simp [magnitude]) [[(1 : ℝ)]] (by simp) [("f", JSNum.nan)] (11 / 20) 20 "f"
    (by intro s hs; exact congrArg Prod.snd (List.mem_singleton.mp hs))
  exact ⟨h.2.1, h.2.2.2.2.2.1, h.2.2.2.1 (11 / 20)⟩
